import Mathlib

/-!
Verification of the LSTM unit rewriter (tf2onnx/rewriter/lstm_rewriter.py).

The development shallowly embeds the parts of `LSTMUnitRewriter` that the
checked properties concern:

* `process_weights_and_bias` — the pure numeric weight/bias gate-reordering
  transform.  Tensors are modelled as `List Int` (vectors) and
  `List (List Int)` (row-major matrices); numpy arrays are rectangular, so
  matrix well-formedness appears as a hypothesis where needed.  Element
  values are modelled as integers: only exact elementwise addition and
  block permutation are at stake, never rounding.
* the loop-state classifiers `_ht_switch_check` and
  `_ct_ht_shared_switch_check`;
* the graph-mutating helpers `process_var_init_nodes`,
  `_process_non_tuple_ch_init_nodes`, `_process_c_or_h_init_nodes`,
  `_workaround_fill_ch_init_node`, `_connect_lstm_output_to_graph` and
  `_validate_output_exit_consumers`, over an explicit graph state.

Python exceptions (numpy ValueError, AssertionError, `list.remove` on a
missing element, `raise ValueError`) are modelled as `none` / `Except.error`
results; the error payload carries the state at the moment the exception is
raised, so that "no further mutation" is expressible.
-/

namespace LstmRewriter

/-! ### Pure tensor model -/

/-- Contiguous sub-vector: `numpy`-style slice `l[s : s+n]`. -/
def subL (l : List Int) (s n : Nat) : List Int := (l.drop s).take n

/-- Column count of a row-major matrix (`shape[1]` of a rectangular numpy
array; for a well-formed array every row has this length). -/
def ncols (m : List (List Int)) : Nat := (m.headD []).length

/-- Row-major transposition of a rectangular matrix (`np.transpose`).  On
rectangular input the default value is never consulted. -/
def transposeM (m : List (List Int)) : List (List Int) :=
  (List.range (ncols m)).map (fun j => m.map (fun r => r.getD j 0))

/-- One row of `np.concatenate((g[0], g[3], g[2], g[1]), axis=1)` after
`np.split(-, 4, axis=1)`: the gate blocks of a row are rearranged from the
native order (input, cell, forget, output) to the fused order
(input, output, forget, cell). -/
def fuseGatesRow (r : List Int) (h : Nat) : List Int :=
  subL r 0 h ++ subL r (3 * h) h ++ subL r (2 * h) h ++ subL r h h

/-- Result record of `process_weights_and_bias`: the three emitted constant
tensors (each with the leading direction axis the source adds via
`np.array([...])`), plus the sizes recorded into `rnn_props`. -/
structure WBOut where
  W : List (List (List Int))
  R : List (List (List Int))
  B : List (List Int)
  input_size : Nat
  hidden_size : Nat
deriving DecidableEq, Repr

/-- Shallow embedding of `LSTMUnitRewriter.process_weights_and_bias`
(lstm_rewriter.py lines 182-235).  `none` models a raised Python exception:
`np.split(b, 4, axis=1)` and `np.split(wx, 4, axis=1)` raise `ValueError`
when the split dimension is not a multiple of 4, and
`assert int(wx.shape[1]/4) == hidden_size` raises `AssertionError`.
`int(bias_dim/4)` is Nat floor division; `np.split(w, [-hidden_size])`
slices rows with clamping exactly as Nat subtraction does.  numpy keeps
`shape[1]` of a row-split equal to the column count of the original array,
hence `kcols` is read from `kernel` once. -/
def process_weights_and_bias (kernel : List (List Int)) (bias : List Int)
    (ft : Int) : Option WBOut :=
  let bias_dim := bias.length
  if bias_dim % 4 ≠ 0 then none else
  let hidden_size := bias_dim / 4
  let bias_gates0 := subL bias 0 hidden_size
  let bias_gates1 := subL bias hidden_size hidden_size
  let bias_gates2 := subL bias (2 * hidden_size) hidden_size
  let bias_gates3 := subL bias (3 * hidden_size) hidden_size
  let ft_bias := bias_gates2.map (fun x => x + ft)
  let wb_bias_iofc := bias_gates0 ++ bias_gates3 ++ ft_bias ++ bias_gates1
  let rb_bias_iofc := List.replicate bias_dim (0 : Int)
  let Bmat := [wb_bias_iofc ++ rb_bias_iofc]
  let wx := kernel.take (kernel.length - hidden_size)
  let wh := kernel.drop (kernel.length - hidden_size)
  let input_size := wx.length
  let kcols := ncols kernel
  if kcols / 4 ≠ hidden_size then none else
  if kcols % 4 ≠ 0 then none else
  let new_wx := wx.map (fun r => fuseGatesRow r hidden_size)
  let new_wh := wh.map (fun r => fuseGatesRow r hidden_size)
  some { W := [transposeM new_wx], R := [transposeM new_wh], B := Bmat,
         input_size := input_size, hidden_size := hidden_size }

/-- Stated from the specification text: split a fused-order row into its 4
gate blocks (input, output, forget, cell) and reassemble them in the native
order (input, cell, forget, output).  Used to compare the emitted tensors
back against the native ones. -/
def reassembleNativeRow (r : List Int) (h : Nat) : List Int :=
  subL r 0 h ++ subL r (3 * h) h ++ subL r (2 * h) h ++ subL r h h

/-- Stated from the specification text: `reassembleNativeRow` applied to
every row of a matrix. -/
def reassembleNativeCols (m : List (List Int)) (h : Nat) : List (List Int) :=
  m.map (fun r => reassembleNativeRow r h)

/-! ### List block lemmas -/

theorem subL_prefix (a t : List Int) : subL (a ++ t) 0 a.length = a := by
  simp [subL, List.take_left]

theorem subL_shift (a t : List Int) (s n : Nat) :
    subL (a ++ t) (a.length + s) n = subL t s n := by
  simp [subL, List.drop_append]

theorem subL_refl (a : List Int) : subL a 0 a.length = a := by
  simp [subL]

theorem subL_length (r : List Int) (s n : Nat) :
    (subL r s n).length = min n (r.length - s) := by
  simp [subL]

/-- A list of length `4 * hn` is the concatenation of its four
`hn`-blocks. -/
theorem decomp4 (hn : Nat) (r : List Int) (hr : r.length = 4 * hn) :
    r = subL r 0 hn ++ subL r hn hn ++ subL r (2 * hn) hn ++
      subL r (3 * hn) hn := by
  have h2 : r.drop hn = (r.drop hn).take hn ++ r.drop (2 * hn) := by
    have h := (List.take_append_drop hn (r.drop hn)).symm
    rwa [List.drop_drop, show hn + hn = 2 * hn from by ring] at h
  have h3 : r.drop (2 * hn) =
      (r.drop (2 * hn)).take hn ++ r.drop (3 * hn) := by
    have h := (List.take_append_drop hn (r.drop (2 * hn))).symm
    rwa [List.drop_drop, show 2 * hn + hn = 3 * hn from by ring] at h
  have h4 : (r.drop (3 * hn)).take hn = r.drop (3 * hn) := by
    apply List.take_of_length_le
    simp [hr]
    omega
  calc r = r.take hn ++ r.drop hn := (List.take_append_drop hn r).symm
    _ = r.take hn ++ ((r.drop hn).take hn ++ r.drop (2 * hn)) :=
        congrArg (r.take hn ++ ·) h2
    _ = r.take hn ++ ((r.drop hn).take hn ++
        ((r.drop (2 * hn)).take hn ++ r.drop (3 * hn))) :=
        congrArg (fun t => r.take hn ++ ((r.drop hn).take hn ++ t)) h3
    _ = r.take hn ++ ((r.drop hn).take hn ++
        ((r.drop (2 * hn)).take hn ++ (r.drop (3 * hn)).take hn)) := by
        rw [h4]
    _ = subL r 0 hn ++ subL r hn hn ++ subL r (2 * hn) hn ++
        subL r (3 * hn) hn := by simp [subL, List.append_assoc]

/-- The four `hn`-blocks of the concatenation of four `hn`-lists. -/
theorem blocks4 (hn : Nat) (a b c d : List Int) (ha : a.length = hn)
    (hb : b.length = hn) (hc : c.length = hn) (hd : d.length = hn) :
    subL (a ++ b ++ c ++ d) 0 hn = a ∧
    subL (a ++ b ++ c ++ d) hn hn = b ∧
    subL (a ++ b ++ c ++ d) (2 * hn) hn = c ∧
    subL (a ++ b ++ c ++ d) (3 * hn) hn = d := by
  have e : a ++ b ++ c ++ d = a ++ (b ++ (c ++ d)) := by
    simp [List.append_assoc]
  rw [e]
  have p0 : subL (a ++ (b ++ (c ++ d))) 0 hn = a := by
    have h := subL_prefix a (b ++ (c ++ d))
    rwa [ha] at h
  refine ⟨p0, ?_, ?_, ?_⟩
  · have h := subL_shift a (b ++ (c ++ d)) 0 hn
    rw [ha, Nat.add_zero] at h
    rw [h]
    have h2 := subL_prefix b (c ++ d)
    rwa [hb] at h2
  · have h := subL_shift a (b ++ (c ++ d)) hn hn
    rw [ha, show hn + hn = 2 * hn from by ring] at h
    rw [h]
    have h2 := subL_shift b (c ++ d) 0 hn
    rw [hb, Nat.add_zero] at h2
    rw [h2]
    have h3 := subL_prefix c d
    rwa [hc] at h3
  · have h := subL_shift a (b ++ (c ++ d)) (2 * hn) hn
    rw [ha, show hn + 2 * hn = 3 * hn from by ring] at h
    rw [h]
    have h2 := subL_shift b (c ++ d) hn hn
    rw [hb, show hn + hn = 2 * hn from by ring] at h2
    rw [h2]
    have h3 := subL_shift c d 0 hn
    rw [hc, Nat.add_zero] at h3
    rw [h3]
    have h4 := subL_refl d
    rwa [hd] at h4

/-- Reassembling the native order from a fused-order row recovers the
original row: the block permutation (0 3 2 1) is an involution. -/
theorem reassembleNativeRow_fuseGatesRow (hn : Nat) (r : List Int)
    (hr : r.length = 4 * hn) :
    reassembleNativeRow (fuseGatesRow r hn) hn = r := by
  have la : (subL r 0 hn).length = hn := by rw [subL_length]; omega
  have lb : (subL r hn hn).length = hn := by rw [subL_length]; omega
  have lc : (subL r (2 * hn) hn).length = hn := by rw [subL_length]; omega
  have ld : (subL r (3 * hn) hn).length = hn := by rw [subL_length]; omega
  obtain ⟨e0, e1, e2, e3⟩ :=
    blocks4 hn (subL r 0 hn) (subL r (3 * hn) hn) (subL r (2 * hn) hn)
      (subL r hn hn) la ld lc lb
  rw [reassembleNativeRow, fuseGatesRow] at *
  rw [e0, e1, e2, e3]
  exact (decomp4 hn r hr).symm

/-! ### Transposition lemmas -/

theorem getD_map_lt {α β : Type} (f : α → β) (l : List α) (i : Nat) (d : β)
    (h : i < l.length) : (l.map f).getD i d = f (l[i]) := by
  rw [List.getD_eq_getElem (l.map f) d (by simpa using h), List.getElem_map]

theorem range_map_getD (r : List Int) :
    (List.range r.length).map (fun j => r.getD j 0) = r := by
  apply List.ext_getElem
  · simp
  · intro i h1 h2
    simp only [List.getElem_map, List.getElem_range]
    exact List.getD_eq_getElem r 0 h2

theorem transposeM_length (m : List (List Int)) :
    (transposeM m).length = ncols m := by
  simp [transposeM]

/-- Double transposition is the identity on rectangular matrices with a
positive column count. -/
theorem transposeM_transposeM (m : List (List Int)) (k : Nat) (hk : 0 < k)
    (hrect : ∀ r ∈ m, r.length = k) : transposeM (transposeM m) = m := by
  cases m with
  | nil => rfl
  | cons r0 mtl =>
    have hnc : ncols (r0 :: mtl) = k := by
      simpa [ncols] using hrect r0 (List.mem_cons_self r0 mtl)
    have hT : transposeM (r0 :: mtl) =
        (List.range k).map (fun j => (r0 :: mtl).map (fun r => r.getD j 0)) := by
      simp only [transposeM, hnc]
    have hTlen : (transposeM (r0 :: mtl)).length = k := by rw [hT]; simp
    have hncT : ncols (transposeM (r0 :: mtl)) = (r0 :: mtl).length := by
      rw [hT]
      cases k with
      | zero => omega
      | succ k' => rw [List.range_succ_eq_map]; simp [ncols]
    apply List.ext_getElem
    · rw [transposeM_length, hncT]
    · intro i hi1 hi2
      have hi : i < (r0 :: mtl).length := hi2
      have hrow : (transposeM (transposeM (r0 :: mtl)))[i] =
          (transposeM (r0 :: mtl)).map (fun c => c.getD i 0) := by
        simp only [transposeM, List.getElem_map, List.getElem_range]
      rw [hrow, hT, List.map_map]
      have hfun : ∀ j ∈ List.range k,
          ((fun c => c.getD i 0) ∘ fun j => (r0 :: mtl).map (fun r => r.getD j 0)) j =
          ((r0 :: mtl)[i]).getD j 0 := by
        intro j _
        simp only [Function.comp]
        exact getD_map_lt (fun r => r.getD j 0) (r0 :: mtl) i 0 hi
      rw [List.map_congr_left hfun]
      have hlen : ((r0 :: mtl)[i]).length = k :=
        hrect _ (List.getElem_mem hi)
      rw [← hlen, range_map_getD]

/-! ### Inversion of `process_weights_and_bias` -/

/-- Explicit success form of `process_weights_and_bias` once the three
failure conditions are ruled out. -/
theorem process_weights_and_bias_eq (kernel : List (List Int))
    (bias : List Int) (ft : Int) (h4 : bias.length % 4 = 0)
    (ha : ncols kernel / 4 = bias.length / 4)
    (hm : ncols kernel % 4 = 0) :
    process_weights_and_bias kernel bias ft =
      some { W := [transposeM ((kernel.take (kernel.length - bias.length / 4)).map
                     (fun r => fuseGatesRow r (bias.length / 4)))],
             R := [transposeM ((kernel.drop (kernel.length - bias.length / 4)).map
                     (fun r => fuseGatesRow r (bias.length / 4)))],
             B := [subL bias 0 (bias.length / 4) ++
                   subL bias (3 * (bias.length / 4)) (bias.length / 4) ++
                   (subL bias (2 * (bias.length / 4)) (bias.length / 4)).map
                     (fun x => x + ft) ++
                   subL bias (bias.length / 4) (bias.length / 4) ++
                   List.replicate bias.length 0],
             input_size := (kernel.take (kernel.length - bias.length / 4)).length,
             hidden_size := bias.length / 4 } := by
  simp [process_weights_and_bias, h4, ha, hm]

/-! ### Claims C1, C2, C3 -/

/-- C1: the weight/bias transformation of `process_weights_and_bias` is a
pure permutation of the four gate blocks from native order
(input, cell, forget, output) to fused order (input, output, forget, cell):
undoing the transpose of the emitted `W` and `R` and reassembling their 4
column blocks in native order reproduces the original kernel rows, and
reassembling the first half of `B` in native order reproduces the original
bias up to the forget-bias addition on the forget block. -/
theorem C1_gate_reorder_is_permutation (input_size hidden_size : Nat)
    (kernel : List (List Int)) (bias : List Int) (ft : Int) (res : WBOut)
    (hh : 0 < hidden_size)
    (hk : kernel.length = input_size + hidden_size)
    (hrect : ∀ r ∈ kernel, r.length = 4 * hidden_size)
    (hb : bias.length = 4 * hidden_size)
    (hproc : process_weights_and_bias kernel bias ft = some res) :
    reassembleNativeCols (transposeM (res.W.headD [])) hidden_size ++
      reassembleNativeCols (transposeM (res.R.headD [])) hidden_size = kernel ∧
    reassembleNativeRow ((res.B.headD []).take bias.length) hidden_size =
      subL bias 0 hidden_size ++ subL bias hidden_size hidden_size ++
      (subL bias (2 * hidden_size) hidden_size).map (fun x => x + ft) ++
      subL bias (3 * hidden_size) hidden_size := by
  have hdiv : bias.length / 4 = hidden_size := by omega
  have h4 : bias.length % 4 = 0 := by omega
  have hne : kernel ≠ [] := by
    intro h
    rw [h] at hk
    simp at hk
    omega
  have hnc : ncols kernel = 4 * hidden_size := by
    cases kernel with
    | nil => exact absurd rfl hne
    | cons r0 tl =>
      simpa [ncols] using hrect r0 (List.mem_cons_self r0 tl)
  have heq := process_weights_and_bias_eq kernel bias ft h4
    (by rw [hnc, hdiv]; omega) (by rw [hnc]; omega)
  rw [hproc] at heq
  have hres := (Option.some.inj heq).symm
  subst hres
  rw [hdiv] at *
  set wx := kernel.take (kernel.length - hidden_size) with hwx
  set wh := kernel.drop (kernel.length - hidden_size) with hwh
  have hwxk : ∀ r ∈ wx, r.length = 4 * hidden_size := fun r hr =>
    hrect r (List.mem_of_mem_take hr)
  have hwhk : ∀ r ∈ wh, r.length = 4 * hidden_size := fun r hr =>
    hrect r (List.mem_of_mem_drop hr)
  have hfuse_len : ∀ (l : List (List Int)),
      (∀ r ∈ l, r.length = 4 * hidden_size) →
      ∀ r ∈ l.map (fun r => fuseGatesRow r hidden_size),
        r.length = 4 * hidden_size := by
    intro l hl r hr
    obtain ⟨r0, hr0, rfl⟩ := List.mem_map.mp hr
    have := hl r0 hr0
    simp [fuseGatesRow, subL_length, this]
    omega
  have hundo : ∀ (l : List (List Int)),
      (∀ r ∈ l, r.length = 4 * hidden_size) →
      reassembleNativeCols
        (transposeM (transposeM (l.map (fun r => fuseGatesRow r hidden_size))))
        hidden_size = l := by
    intro l hl
    rw [transposeM_transposeM _ (4 * hidden_size) (by omega) (hfuse_len l hl)]
    rw [reassembleNativeCols, List.map_map]
    have : ∀ r ∈ l, ((fun r => reassembleNativeRow r hidden_size) ∘
        fun r => fuseGatesRow r hidden_size) r = id r := by
      intro r hr
      simp only [Function.comp, id]
      exact reassembleNativeRow_fuseGatesRow hidden_size r (hl r hr)
    rw [List.map_congr_left this, List.map_id]
  constructor
  · show reassembleNativeCols (transposeM (transposeM _)) hidden_size ++
      reassembleNativeCols (transposeM (transposeM _)) hidden_size = kernel
    rw [hundo wx hwxk, hundo wh hwhk]
    exact List.take_append_drop _ kernel
  · show reassembleNativeRow ((_ ++ List.replicate bias.length 0).take
      bias.length) hidden_size = _
    set bg0 := subL bias 0 hidden_size with hbg0
    set bg1 := subL bias hidden_size hidden_size with hbg1
    set bg2m := (subL bias (2 * hidden_size) hidden_size).map
      (fun x => x + ft) with hbg2m
    set bg3 := subL bias (3 * hidden_size) hidden_size with hbg3
    have l0 : bg0.length = hidden_size := by rw [hbg0, subL_length]; omega
    have l1 : bg1.length = hidden_size := by rw [hbg1, subL_length]; omega
    have l2 : bg2m.length = hidden_size := by
      rw [hbg2m, List.length_map, subL_length]; omega
    have l3 : bg3.length = hidden_size := by rw [hbg3, subL_length]; omega
    have hwb : (bg0 ++ bg3 ++ bg2m ++ bg1).length = bias.length := by
      simp [l0, l1, l2, l3]
      omega
    rw [← hwb, List.take_left]
    obtain ⟨e0, e1, e2, e3⟩ := blocks4 hidden_size bg0 bg3 bg2m bg1 l0 l3 l2 l1
    rw [reassembleNativeRow, e0, e1, e2, e3]

/-- C2: the emitted bias tensor `B` consists of the native gate blocks in
fused order with the forget-bias scalar added elementwise to the forget
block, followed by an all-zero recurrent-bias half, and has shape
`(1, 2 * native_bias_length)`. -/
theorem C2_forget_bias_folding (hidden_size : Nat)
    (kernel : List (List Int)) (bias : List Int) (ft : Int) (res : WBOut)
    (hb : bias.length = 4 * hidden_size)
    (hproc : process_weights_and_bias kernel bias ft = some res) :
    res.B = [subL bias 0 hidden_size ++
             subL bias (3 * hidden_size) hidden_size ++
             (subL bias (2 * hidden_size) hidden_size).map (fun x => x + ft) ++
             subL bias hidden_size hidden_size ++
             List.replicate (4 * hidden_size) 0] ∧
    (res.B.headD []).length = 2 * bias.length := by
  have hdiv : bias.length / 4 = hidden_size := by omega
  have h4 : bias.length % 4 = 0 := by omega
  simp only [process_weights_and_bias] at hproc
  split at hproc
  · exact Option.noConfusion hproc
  split at hproc
  · exact Option.noConfusion hproc
  split at hproc
  · exact Option.noConfusion hproc
  have hres := (Option.some.inj hproc)
  subst hres
  rw [hdiv, hb]
  refine ⟨rfl, ?_⟩
  simp [subL_length, hb]
  omega

/-- C3: `process_weights_and_bias` produces a result only when the bias
length is an exact multiple of 4 (otherwise `np.split` raises and no fused
tensors are emitted), and any produced result has
`hidden_size = bias_length / 4` exactly. -/
theorem C3_hidden_size_exact_or_reject (kernel : List (List Int))
    (bias : List Int) (ft : Int) :
    (bias.length % 4 ≠ 0 → process_weights_and_bias kernel bias ft = none) ∧
    (∀ res : WBOut, process_weights_and_bias kernel bias ft = some res →
      bias.length % 4 = 0 ∧ 4 * res.hidden_size = bias.length) := by
  constructor
  · intro h
    simp [process_weights_and_bias, h]
  · intro res hproc
    simp only [process_weights_and_bias] at hproc
    split at hproc
    · exact Option.noConfusion hproc
    next h4 =>
      have h4' : bias.length % 4 = 0 := by
        by_contra hc
        exact h4 hc
      split at hproc
      · exact Option.noConfusion hproc
      split at hproc
      · exact Option.noConfusion hproc
      have hres := (Option.some.inj hproc)
      subst hres
      refine ⟨h4', ?_⟩
      show 4 * (bias.length / 4) = bias.length
      omega

/-! Concrete sample for the C1/C2 witnesses:
kernel of shape (2, 4) with input_size = hidden_size = 1,
bias of length 4, forget-bias 7. -/

def sampleKernel : List (List Int) := [[1, 2, 3, 4], [5, 6, 7, 8]]

def sampleBias : List Int := [10, 20, 30, 40]

def sampleWB : WBOut :=
  { W := [[[1], [4], [3], [2]]], R := [[[5], [8], [7], [6]]],
    B := [[10, 40, 37, 20, 0, 0, 0, 0]], input_size := 1, hidden_size := 1 }

/-- Witness for C1 at the concrete sample. -/
theorem C1_gate_reorder_witness :
    reassembleNativeCols (transposeM (sampleWB.W.headD [])) 1 ++
      reassembleNativeCols (transposeM (sampleWB.R.headD [])) 1 = sampleKernel ∧
    reassembleNativeRow ((sampleWB.B.headD []).take sampleBias.length) 1 =
      subL sampleBias 0 1 ++ subL sampleBias 1 1 ++
      (subL sampleBias (2 * 1) 1).map (fun x => x + 7) ++
      subL sampleBias (3 * 1) 1 :=
  C1_gate_reorder_is_permutation 1 1 sampleKernel sampleBias 7 sampleWB
    (by decide) (by decide) (by decide) (by decide) (by decide)

/-- Witness for C2 at the concrete sample. -/
theorem C2_forget_bias_folding_witness :
    sampleWB.B = [subL sampleBias 0 1 ++ subL sampleBias (3 * 1) 1 ++
      (subL sampleBias (2 * 1) 1).map (fun x => x + 7) ++
      subL sampleBias 1 1 ++ List.replicate (4 * 1) 0] ∧
    (sampleWB.B.headD []).length = 2 * sampleBias.length :=
  C2_forget_bias_folding 1 sampleKernel sampleBias 7 sampleWB
    (by decide) (by decide)

/-- Witness for C3 at a bias of length 5 (not a multiple of 4): no result
is produced. -/
theorem C3_reject_witness :
    process_weights_and_bias [] [1, 2, 3, 4, 5] 0 = none :=
  (C3_hidden_size_exact_or_reject [] [1, 2, 3, 4, 5] 0).1 (by decide)

/-! ### Graph node model -/

/-- A graph node as the rewriter observes it.  Tensor references are plain
ids (`Nat`); `name` is the unique node name (`utils.make_name` produces
fresh names, so structural equality of nodes coincides with Python object
identity).  `val` is the decoded constant payload for constant nodes
(flattened; shapes are tracked separately).  `time_major_perm` abstracts
the missing `check_is_timemajor_transpose` helper of rnn_utils (not under
src/), modelled from the spec: it marks a transpose whose permutation
swaps the time and batch axes (possibly held in a non-constant input). -/
structure Node where
  name : Nat
  type : String
  inputs : List Nat
  output : List Nat
  isConstNode : Bool := false
  val : List Int := []
  attrs : List (String × List Int) := []
  time_major_perm : Bool := false
deriving DecidableEq, Repr

/-! ### Claim C7: `_ht_switch_check` (lstm_rewriter.py lines 83-90) -/

/-- Shallow embedding of `LSTMUnitRewriter._ht_switch_check`: count the
identity consumers that are the node bound to the `xh` role and accept
exactly when that count is 1. -/
def ht_switch_check (enter_target_node_input_id : Nat)
    (identity_consumers : List Node) (xh : Node) : Option Nat :=
  let concat_nodes := identity_consumers.filter (fun c => decide (c = xh))
  if concat_nodes.length = 1 then some enter_target_node_input_id
  else none

/-- C7 counterexample data: the `xh`-bound concat node and an unrelated
second consumer. -/
def xhSample : Node := { name := 0, type := "ConcatV2", inputs := [], output := [1] }

/-- C7 counterexample data: an extra consumer of the loop identity value. -/
def mulSample : Node := { name := 2, type := "Mul", inputs := [], output := [3] }

/-- C7 counterexample: with consumers `[xh, mul]` the identity value is
consumed twice, yet `_ht_switch_check` accepts, contradicting the claim
that any consumer set other than exactly one consumer equal to `xh`
rejects. -/
theorem C7_counterexample :
    ht_switch_check 7 [xhSample, mulSample] xhSample = some 7 ∧
    mulSample ≠ xhSample ∧ [xhSample, mulSample].length = 2 := by
  refine ⟨by decide, by decide, by decide⟩

/-- C7 amended: `_ht_switch_check` returns the entry tensor id exactly when
exactly one element of the consumer list is the `xh`-bound node; consumers
different from `xh` are ignored (they neither help nor block acceptance),
and any returned value is the entry tensor id. -/
theorem C7_ht_check_counts_only_xh (enterId : Nat) (cs : List Node)
    (xh : Node) :
    (ht_switch_check enterId cs xh = some enterId ↔
      (cs.filter (fun c => decide (c = xh))).length = 1) ∧
    (∀ r, ht_switch_check enterId cs xh = some r → r = enterId) := by
  constructor
  · simp only [ht_switch_check]
    split
    next h => simp [h]
    next h => simp [h]
  · intro r hr
    simp only [ht_switch_check] at hr
    split at hr
    · exact (Option.some.inj hr).symm
    · exact Option.noConfusion hr

/-- Witness for the C7 amended theorem: a single `xh` consumer plus an
unrelated consumer is accepted. -/
theorem C7_ht_check_witness :
    ht_switch_check 7 [xhSample, mulSample] xhSample = some 7 ↔
      ([xhSample, mulSample].filter (fun c => decide (c = xhSample))).length = 1 :=
  (C7_ht_check_counts_only_xh 7 [xhSample, mulSample] xhSample).1

/-! ### Claim C6: `_ct_ht_shared_switch_check` (lines 93-118) -/

/-- View of one identity consumer as `_ct_ht_shared_switch_check` reads
it: its operator type; for Slice nodes the decoded begin and size tensors
(`s.inputs[1].get_tensor_value()`, `s.inputs[2].get_tensor_value()`) and
the number of consumers of the slice output
(`len(g.find_output_consumers(s.output[0]))`).  The graph mode and
constant decoding are external collaborators, so the check is embedded
over these query results. -/
structure ConsumerView where
  name : Nat
  type : String
  beginVal : List Int := []
  sizeVal : List Int := []
  nConsumers : Nat := 0
deriving DecidableEq, Repr

/-- One iteration of the `for s in slices` loop: skip multi-consumer
slices; classify a slice into the candidate cell half (begin `[0, 0]`) or
hidden half (begin `[0, hidden_size]` where `hidden_size = s_size[1]` is
read from the same slice), overwriting previous candidates. -/
def ct_ht_shared_step (acc : Option ConsumerView × Option ConsumerView)
    (s : ConsumerView) : Option ConsumerView × Option ConsumerView :=
  if s.nConsumers ≠ 1 then acc
  else
    let hidden_size := s.sizeVal.getD 1 0
    if s.beginVal = [0, 0] then (some s, acc.2)
    else if s.beginVal = [0, hidden_size] then (acc.1, some s)
    else acc

/-- Shallow embedding of `LSTMUnitRewriter._ct_ht_shared_switch_check`. -/
def ct_ht_shared_switch_check (enter_target_node_input_id : Nat)
    (identity_consumers : List ConsumerView) : Option Nat :=
  let slices := identity_consumers.filter (fun c => decide (c.type = "Slice"))
  if slices.isEmpty then none
  else
    match slices.foldl ct_ht_shared_step (none, none) with
    | (some _, some _) => some enter_target_node_input_id
    | _ => none

/-- A slice the loop records as the cell-half candidate. -/
def isCSlice (s : ConsumerView) : Prop :=
  s.nConsumers = 1 ∧ s.beginVal = [0, 0]

/-- A slice the loop records as the hidden-half candidate: begin equals
`[0, half-width]` with the half-width read from the size attribute of the
slice itself, and not the `[0, 0]` case (which the `if` chain claims
first). -/
def isHSlice (s : ConsumerView) : Prop :=
  s.nConsumers = 1 ∧ s.beginVal = [0, s.sizeVal.getD 1 0] ∧
    s.beginVal ≠ [0, 0]

instance : DecidablePred isCSlice := fun s => by
  unfold isCSlice; infer_instance

instance : DecidablePred isHSlice := fun s => by
  unfold isHSlice; infer_instance

theorem ct_ht_shared_step_fst (acc : Option ConsumerView × Option ConsumerView)
    (s : ConsumerView) :
    (ct_ht_shared_step acc s).1.isSome = (acc.1.isSome || decide (isCSlice s)) := by
  simp only [ct_ht_shared_step, isCSlice]
  split
  next h => simp [h]
  next h =>
    split
    next hb => simp [hb, not_not.mp h]
    next hb =>
      split
      next hb2 => simp [hb]
      next hb2 => simp [hb]

theorem ct_ht_shared_step_snd (acc : Option ConsumerView × Option ConsumerView)
    (s : ConsumerView) :
    (ct_ht_shared_step acc s).2.isSome = (acc.2.isSome || decide (isHSlice s)) := by
  simp only [ct_ht_shared_step, isHSlice]
  split
  next h => simp [h]
  next h =>
    split
    next hb => simp [hb, not_not.mp h]
    next hb =>
      split
      next hb2 =>
        simp [hb, hb2, not_not.mp h]
        refine Or.inr fun h0 => hb ?_
        rw [hb2, List.getD_eq_getElem?_getD, h0]
      next hb2 =>
        simp [hb]
        intro _ hbeq
        rw [List.getD_eq_getElem?_getD] at hb2
        exact absurd hbeq hb2

theorem ct_ht_shared_fold_fst (l : List ConsumerView)
    (acc : Option ConsumerView × Option ConsumerView) :
    (l.foldl ct_ht_shared_step acc).1.isSome = true ↔
      (acc.1.isSome = true ∨ ∃ s ∈ l, isCSlice s) := by
  induction l generalizing acc with
  | nil => simp
  | cons s l ih =>
    rw [List.foldl_cons, ih, ct_ht_shared_step_fst]
    simp [or_assoc]

theorem ct_ht_shared_fold_snd (l : List ConsumerView)
    (acc : Option ConsumerView × Option ConsumerView) :
    (l.foldl ct_ht_shared_step acc).2.isSome = true ↔
      (acc.2.isSome = true ∨ ∃ s ∈ l, isHSlice s) := by
  induction l generalizing acc with
  | nil => simp
  | cons s l ih =>
    rw [List.foldl_cons, ih, ct_ht_shared_step_snd]
    simp [or_assoc]

/-- C6 counterexample data: three single-consumer slices over a packed
state of width 6 (hidden half-width 3): two distinct slices starting at
offset `[0, 0]` and one starting at `[0, 3]`. -/
def cSliceA : ConsumerView :=
  { name := 1, type := "Slice", beginVal := [0, 0], sizeVal := [2, 3],
    nConsumers := 1 }

/-- Second slice at offset `[0, 0]` (see `cSliceA`). -/
def cSliceB : ConsumerView :=
  { name := 2, type := "Slice", beginVal := [0, 0], sizeVal := [2, 3],
    nConsumers := 1 }

/-- The hidden-half slice at offset `[0, 3]` (see `cSliceA`). -/
def hSliceA : ConsumerView :=
  { name := 3, type := "Slice", beginVal := [0, 3], sizeVal := [2, 3],
    nConsumers := 1 }

/-- C6 counterexample: with two single-consumer slices at offset 0 and one
at the half-width offset, `_ct_ht_shared_switch_check` accepts, although
the claim requires exactly one slice at each offset and rejection in every
other case. -/
theorem C6_counterexample :
    ct_ht_shared_switch_check 42 [cSliceA, cSliceB, hSliceA] = some 42 ∧
    (([cSliceA, cSliceB, hSliceA].filter
        (fun s => decide (s.beginVal = [0, 0]))).length = 2) := by
  refine ⟨by decide, by decide⟩

/-- C6 amended: the shared cell+hidden check accepts the entry tensor id
exactly when among the Slice-typed consumers there is at least one
single-downstream-consumer slice starting at offset `[0, 0]` and at least
one single-downstream-consumer slice starting at `[0, half-width]`, the
half-width read from the size attribute of that same slice; with several
candidate slices at an offset the last one wins.  In every other case it
returns no result.  The hypothesis restricts to well-formed 2-D slices
(the Python code indexes `s_size[1]`). -/
theorem C6_shared_check_accepts_last_candidates (enterId : Nat)
    (cs : List ConsumerView)
    (_hwf : ∀ s ∈ cs, s.type = "Slice" → s.nConsumers = 1 →
      2 ≤ s.sizeVal.length) :
    (((∃ s ∈ cs.filter (fun c => decide (c.type = "Slice")), isCSlice s) ∧
      (∃ s ∈ cs.filter (fun c => decide (c.type = "Slice")), isHSlice s)) →
      ct_ht_shared_switch_check enterId cs = some enterId) ∧
    ((¬ ((∃ s ∈ cs.filter (fun c => decide (c.type = "Slice")), isCSlice s) ∧
         (∃ s ∈ cs.filter (fun c => decide (c.type = "Slice")), isHSlice s))) →
      ct_ht_shared_switch_check enterId cs = none) := by
  have hf := ct_ht_shared_fold_fst
    (cs.filter (fun c => decide (c.type = "Slice"))) (none, none)
  have hs := ct_ht_shared_fold_snd
    (cs.filter (fun c => decide (c.type = "Slice"))) (none, none)
  simp only [Option.isSome_none, Bool.false_eq_true, false_or] at hf hs
  simp only [ct_ht_shared_switch_check]
  rcases hp : (cs.filter (fun c => decide (c.type = "Slice"))).foldl
    ct_ht_shared_step (none, none) with ⟨a, b⟩
  rw [hp] at hf hs
  rw [hp]
  constructor
  · rintro ⟨hc, hh⟩
    have hne : (cs.filter (fun c => decide (c.type = "Slice"))).isEmpty = false := by
      rcases hc with ⟨s, hsmem, _⟩
      cases hl : cs.filter (fun c => decide (c.type = "Slice")) with
      | nil => rw [hl] at hsmem; simp at hsmem
      | cons hd tl => simp [hl]
    rw [if_neg (by rw [hne]; simp)]
    cases a with
    | none =>
      exfalso
      have := hf.mpr hc
      simp at this
    | some x =>
      cases b with
      | none =>
        exfalso
        have := hs.mpr hh
        simp at this
      | some y => rfl
  · intro hn
    by_cases hemp : (cs.filter (fun c => decide (c.type = "Slice"))).isEmpty = true
    · rw [if_pos hemp]
    · rw [if_neg hemp]
      cases a with
      | some x =>
        cases b with
        | some y =>
          exact absurd ⟨hf.mp (by simp), hs.mp (by simp)⟩ hn
        | none => rfl
      | none =>
        cases b with
        | some y => rfl
        | none => rfl

/-- Witness for the C6 amended theorem at the counterexample input: both
candidate halves exist, so the check accepts. -/
theorem C6_shared_check_witness :
    ct_ht_shared_switch_check 42 [cSliceA, cSliceB, hSliceA] = some 42 :=
  (C6_shared_check_accepts_last_candidates 42 [cSliceA, cSliceB, hSliceA]
    (by decide)).1 ⟨⟨cSliceA, by decide, by decide⟩, ⟨hSliceA, by decide, by decide⟩⟩

/-! ### Graph state model

The Graph Model is an external collaborator of the rewriter (spec section
2); the rewriter consumes node and consumer lookup, node construction,
graph-wide input replacement and shape bookkeeping.  Modelled from the
spec: a single retained-node list serves both as the graph node store and
as the driver's `self.all_nodes` list (the spec requires input replacement
to be graph-wide over all retained nodes); `utils.make_name` is a fresh
counter, so node names and new tensor ids are drawn from `nextName`.
`make_onnx_node` constructs a node without inserting it (the rewriter
inserts via `all_nodes.extend`), while `make_const` registers the constant
node immediately (const nodes are never extended by the rewriter yet must
be retained). -/
structure GraphState where
  nodes : List Node
  mustKeep : List Nat
  shapes : List (Nat × List Int)
  nextName : Nat
deriving DecidableEq, Repr

/-- Operator type strings used by the rewriter. -/
def opSlice : String := "Slice"

/-- Operator type string (see `opSlice`). -/
def opUnsqueeze : String := "Unsqueeze"

/-- Operator type string (see `opSlice`). -/
def opSqueeze : String := "Squeeze"

/-- Operator type string (see `opSlice`). -/
def opTranspose : String := "Transpose"

/-- Operator type string (see `opSlice`). -/
def opConcat : String := "Concat"

/-- Operator type string (see `opSlice`). -/
def opCast : String := "Cast"

/-- Operator type string (see `opSlice`). -/
def opTile : String := "Tile"

/-- Operator type string (see `opSlice`). -/
def opConst : String := "Const"

/-- Operator type string (see `opSlice`). -/
def opFill : String := "Fill"

/-- Operator type string (see `opSlice`). -/
def opTAGather : String := "TensorArrayGatherV3"

/-- Operator type string (see `opSlice`). -/
def opTASize : String := "TensorArraySizeV3"

/-- `g.find_output_consumers(t)`: the retained nodes having tensor `t`
among their inputs. -/
def find_output_consumers (st : GraphState) (t : Nat) : List Node :=
  st.nodes.filter (fun n => decide (t ∈ n.inputs))

/-- `g.get_node_by_name(t)` as the rewriter uses it: resolve a tensor id
to its producing node (`none` models Python returning `None`). -/
def get_node_by_name (st : GraphState) (t : Nat) : Option Node :=
  st.nodes.find? (fun n => decide (t ∈ n.output))

/-- `make_onnx_node(g, ty, inputs, attr, output_count)`: construct a fresh
node (fresh name and fresh output tensor ids from the name counter)
without inserting it into the retained list. -/
def make_onnx_node (st : GraphState) (ty : String) (ins : List Nat)
    (ats : List (String × List Int)) (numOutputs : Nat := 1) :
    Node × GraphState :=
  ({ name := st.nextName, type := ty, inputs := ins,
     output := (List.range numOutputs).map (fun i => st.nextName + 1 + i),
     attrs := ats },
   { st with nextName := st.nextName + 1 + numOutputs })

/-- `g.make_const(name, value)`: construct a fresh constant node and
register it in the graph. -/
def make_const (st : GraphState) (v : List Int) : Node × GraphState :=
  let nd : Node := { name := st.nextName, type := opConst, inputs := [],
                     output := [st.nextName + 1], isConstNode := true,
                     val := v }
  (nd, { st with nodes := st.nodes ++ [nd], nextName := st.nextName + 2 })

/-- `self.all_nodes.extend(ns)`. -/
def extendAll (st : GraphState) (ns : List Node) : GraphState :=
  { st with nodes := st.nodes ++ ns }

/-- `g.replace_all_inputs(nodes, old, new)`: rewrite every reference to
tensor `old` into `nw` across a node list. -/
def replace_all_inputs (ns : List Node) (old nw : Nat) : List Node :=
  ns.map (fun n =>
    { n with inputs := n.inputs.map (fun i => if i = old then nw else i) })

/-- `g.set_shape(t, s)`. -/
def set_shape (st : GraphState) (t : Nat) (s : List Int) : GraphState :=
  { st with shapes := (t, s) :: st.shapes }

/-- `g.get_shape(t)` (empty shape when untracked). -/
def get_shape (st : GraphState) (t : Nat) : List Int :=
  ((st.shapes.find? (fun p => decide (p.1 = t))).map (fun p => p.2)).getD []

/-- First output tensor id of a node (`node.output[0]`). -/
def outId (n : Node) : Nat := n.output.getD 0 0

/-- Modelled from the spec: `check_is_timemajor_transpose` of the missing
rnn utils module recognises a transpose swapping the time and batch axes;
represented by the `time_major_perm` flag since the permutation may be
held in a non-constant input. -/
def check_is_timemajor_transpose (n : Node) : Bool :=
  decide (n.type = opTranspose) && n.time_major_perm

/-- Per-match properties the initial-state builder consumes: the verified
initializer tensor id per loop-state slot (`rnn_props.var_initializers`
keys "ct_ht", "ct", "ht"), the hidden size, the batch-size-producing node
from `process_seq_length`, and the time-major flag. -/
structure RnnProps where
  var_ct_ht : Option Nat := none
  var_ct : Option Nat := none
  var_ht : Option Nat := none
  hidden_size : Nat := 0
  batch_size_node : Node := { name := 0, type := opConst, inputs := [],
                              output := [0] }
  time_major : Bool := true
deriving DecidableEq, Repr

/-- Errors carry the graph state at the moment the Python exception is
raised. -/
abbrev GErr := String × GraphState

/-! ### Claim C10 prerequisite: `_workaround_fill_ch_init_node`
(lines 299-323) -/

/-- Shallow embedding of `_workaround_fill_ch_init_node`.  Python
`list.remove` raises `ValueError` when the element is absent, modelled as
an error; `node.inputs[1].get_tensor_value()[0]` resolves the second input
of the Fill node to its constant payload.  `int64` casts and dtypes do not
affect connectivity and are recorded as attributes only. -/
def workaround_fill_ch_init_node (st : GraphState)
    (initializer_input_id : Nat) (rp : RnnProps) :
    Except GErr (Option Node × GraphState) :=
  match get_node_by_name st initializer_input_id with
  | none => Except.error ("initializer node not found", st)
  | some node =>
    if node.type ≠ opFill then Except.ok (none, st)
    else if node.name ∉ st.mustKeep then
      Except.error ("must_keep_nodes.remove: node not in list", st)
    else
      let st1 : GraphState :=
        { st with mustKeep := st.mustKeep.erase node.name }
      match node.inputs.get? 1 with
      | none => Except.error ("Fill node has no second input", st1)
      | some fvId =>
        match get_node_by_name st1 fvId with
        | none => Except.error ("fill value producer not found", st1)
        | some fvNode =>
          match fvNode.val.get? 0 with
          | none => Except.error ("fill value tensor empty", st1)
          | some fill_val =>
            let pr1 := make_const st1 [1]
            let num_direction_node := pr1.1
            let pr2 := make_const pr1.2 [Int.ofNat rp.hidden_size]
            let h_node := pr2.1
            let b_node := rp.batch_size_node
            let pr3 := make_onnx_node pr2.2 opConcat
              [outId num_direction_node, outId b_node, outId h_node]
              [("axis", [0])]
            let tile_shape := pr3.1
            let pr4 := make_onnx_node pr3.2 opCast [outId tile_shape]
              [("to", [7])]
            let tile_shape_int64 := pr4.1
            let pr5 := make_const pr4.2 [fill_val]
            let const_node := pr5.1
            let pr6 := make_onnx_node pr5.2 opTile
              [outId const_node, outId tile_shape_int64] []
            let tile_node := pr6.1
            let st8 := extendAll pr6.2 [tile_shape, tile_shape_int64, tile_node]
            Except.ok (some tile_node, st8)

/-! ### Claims C4, C9 prerequisites: the initial-state builders
(lines 237-297) -/

/-- Shallow embedding of `_process_non_tuple_ch_init_nodes`.  Returns the
pair `(init_h_id, init_c_id)` of tensor ids the caller records, together
with the mutated state. -/
def process_non_tuple_ch_init_nodes (st : GraphState) (rp : RnnProps) :
    Except GErr ((Nat × Nat) × GraphState) :=
  match rp.var_ct_ht with
  | none => Except.error ("var_initializers has no ct_ht entry", st)
  | some input_id =>
    let hidden_size := rp.hidden_size
    match workaround_fill_ch_init_node st input_id rp with
    | Except.error e => Except.error e
    | Except.ok (some fill_node, st1) =>
      Except.ok ((outId fill_node, outId fill_node), st1)
    | Except.ok (none, st1) =>
      let pr1 := make_onnx_node st1 opSlice [input_id]
        [("axes", [1]), ("starts", [0]), ("ends", [Int.ofNat hidden_size])]
      let slice_node1 := pr1.1
      let pr2 := make_onnx_node pr1.2 opUnsqueeze [outId slice_node1]
        [("axes", [0])]
      let unsqueeze_node_1 := pr2.1
      let pr3 := make_onnx_node pr2.2 opSlice [input_id]
        [("axes", [1]), ("starts", [Int.ofNat hidden_size]),
         ("ends", [Int.ofNat (hidden_size * 2)])]
      let slice_node2 := pr3.1
      let pr4 := make_onnx_node pr3.2 opUnsqueeze [outId slice_node2]
        [("axes", [0])]
      let unsqueeze_node_2 := pr4.1
      let st6 := extendAll pr4.2
        [slice_node1, slice_node2, unsqueeze_node_1, unsqueeze_node_2]
      match get_node_by_name st6 input_id with
      | none => Except.error ("initializer node not found for must_keep", st6)
      | some nd =>
        Except.ok ((outId unsqueeze_node_1, outId unsqueeze_node_2),
          { st6 with mustKeep := st6.mustKeep ++ [nd.name] })

/-- Shallow embedding of `_process_c_or_h_init_nodes`. -/
def process_c_or_h_init_nodes (st : GraphState)
    (initializer_input_id : Nat) (rp : RnnProps) :
    Except GErr (Nat × GraphState) :=
  match workaround_fill_ch_init_node st initializer_input_id rp with
  | Except.error e => Except.error e
  | Except.ok (some fill_node, st1) => Except.ok (outId fill_node, st1)
  | Except.ok (none, st1) =>
    match get_node_by_name st1 initializer_input_id with
    | none => Except.error ("initializer node not found", st1)
    | some node =>
      let st2 : GraphState :=
        { st1 with mustKeep := st1.mustKeep ++ [node.name] }
      if node.isConstNode then
        let pr := make_const st2 node.val
        Except.ok (outId pr.1, pr.2)
      else
        let pr := make_onnx_node st2 opUnsqueeze [initializer_input_id]
          [("axes", [0])]
        let squeeze_node := pr.1
        let st3 : GraphState :=
          { pr.2 with nodes := (replace_all_inputs pr.2.nodes
              initializer_input_id (outId squeeze_node)) }
        Except.ok (outId squeeze_node, extendAll st3 [squeeze_node])

/-- Shallow embedding of `_process_tuple_ch_init_nodes`: the hidden slot
first, then the cell slot. -/
def process_tuple_ch_init_nodes (st : GraphState) (rp : RnnProps) :
    Except GErr ((Nat × Nat) × GraphState) :=
  match rp.var_ht, rp.var_ct with
  | some h_id, some c_id =>
    match process_c_or_h_init_nodes st h_id rp with
    | Except.error e => Except.error e
    | Except.ok (h_out, st1) =>
      match process_c_or_h_init_nodes st1 c_id rp with
      | Except.error e => Except.error e
      | Except.ok (c_out, st2) => Except.ok ((h_out, c_out), st2)
  | _, _ => Except.error ("tuple initializer ids missing", st)

/-- Shallow embedding of `process_var_init_nodes` (lines 237-248): the
dispatch on the populated initializer slots; the `raise ValueError` branch
is the error case.  The returned pair is what the source records into
`onnx_input_ids["initial_h"|"initial_c"]`. -/
def process_var_init_nodes (st : GraphState) (rp : RnnProps) :
    Except GErr ((Nat × Nat) × GraphState) :=
  if rp.var_ct_ht.isSome then
    process_non_tuple_ch_init_nodes st rp
  else if rp.var_ct.isSome ∧ rp.var_ht.isSome then
    process_tuple_ch_init_nodes st rp
  else
    Except.error ("no initializers, unexpected", st)

/-- Boolean success projection for `Except` results. -/
def isOkE {ε α : Type} : Except ε α → Bool
  | Except.ok _ => true
  | Except.error _ => false

/-! ### Claim C4: `process_var_init_nodes` dispatch -/

/-- C4 sample data: a non-Fill constant initializer node producing tensor
id 1. -/
def initConstSample : Node :=
  { name := 0, type := opConst, inputs := [], output := [1],
    isConstNode := true, val := [5] }

/-- C4 sample state containing only `initConstSample`. -/
def varInitStateSample : GraphState :=
  { nodes := [initConstSample], mustKeep := [], shapes := [], nextName := 2 }

/-- C4 sample properties mapping all three initializer slots (the shared
slot and the cell and hidden slots) to tensor id 1. -/
def varInitPropsAll : RnnProps :=
  { var_ct_ht := some 1, var_ct := some 1, var_ht := some 1,
    hidden_size := 3 }

/-- Default-constructed `RnnProps` (no initializer slot populated). -/
def defaultProps : RnnProps := {}

/-- The empty graph state. -/
def emptyState : GraphState :=
  { nodes := [], mustKeep := [], shapes := [], nextName := 0 }

/-- C4 counterexample: with the shared slot and the cell and hidden slots
all populated simultaneously, `process_var_init_nodes` proceeds through
the shared path and succeeds, contradicting the claim that any
combination other than exactly one of the two raises a fatal
construction error. -/
theorem C4_counterexample :
    varInitPropsAll.var_ct_ht.isSome = true ∧
    varInitPropsAll.var_ct.isSome = true ∧
    varInitPropsAll.var_ht.isSome = true ∧
    isOkE (process_var_init_nodes varInitStateSample varInitPropsAll) = true := by
  refine ⟨by decide, by decide, by decide, by decide⟩

/-- C4 amended: the dispatch gives the shared slot precedence: if `ct_ht`
is populated the shared path runs regardless of the other slots; else if
both `ct` and `ht` are populated the tuple path runs; only when neither
combination is available does the builder raise the fatal
"no initializers" error (with the state unmutated at the raise). -/
theorem C4_dispatch_priority (st : GraphState) (rp : RnnProps) :
    (rp.var_ct_ht.isSome →
      process_var_init_nodes st rp = process_non_tuple_ch_init_nodes st rp) ∧
    (rp.var_ct_ht = none → rp.var_ct.isSome → rp.var_ht.isSome →
      process_var_init_nodes st rp = process_tuple_ch_init_nodes st rp) ∧
    (rp.var_ct_ht = none → (rp.var_ct = none ∨ rp.var_ht = none) →
      process_var_init_nodes st rp =
        Except.error ("no initializers, unexpected", st)) := by
  refine ⟨?_, ?_, ?_⟩
  · intro h
    simp only [process_var_init_nodes]
    rw [if_pos h]
  · intro h hc hh
    simp only [process_var_init_nodes]
    rw [if_neg (by simp [h]), if_pos ⟨hc, hh⟩]
  · intro h hor
    simp only [process_var_init_nodes]
    rw [if_neg (by simp [h]), if_neg]
    rintro ⟨hc, hh⟩
    rcases hor with h0 | h0 <;> simp [h0] at hc hh

/-- Witness for the C4 amended theorem: with no slot populated the fatal
branch is taken and the error carries the unmutated state. -/
theorem C4_dispatch_witness :
    process_var_init_nodes emptyState defaultProps =
      Except.error ("no initializers, unexpected", emptyState) :=
  (C4_dispatch_priority emptyState defaultProps).2.2 rfl (Or.inl rfl)

/-! ### Claim C10: the Fill workaround must-keep precondition -/

/-- Success form of the workaround on non-Fill initializers: no mutation,
no replacement node. -/
theorem workaround_nonfill (st : GraphState) (tid : Nat) (rp : RnnProps)
    (nd : Node) (hlook : get_node_by_name st tid = some nd)
    (hnf : nd.type ≠ opFill) :
    workaround_fill_ch_init_node st tid rp = Except.ok (none, st) := by
  unfold workaround_fill_ch_init_node
  rw [hlook]
  simp [hnf]

/-- C10: for an initializer produced by a Fill node that is not currently
a member of the must-keep list, `_workaround_fill_ch_init_node` raises
(Python `list.remove` on a missing element) instead of absorbing the
initializer, and the non-tuple initial-state path therefore aborts; the
error carries the state from before any mutation. -/
theorem C10_fill_workaround_requires_membership (st : GraphState)
    (tid : Nat) (rp : RnnProps) (nd : Node)
    (hlook : get_node_by_name st tid = some nd)
    (hfill : nd.type = opFill)
    (hmem : nd.name ∉ st.mustKeep) :
    workaround_fill_ch_init_node st tid rp =
      Except.error ("must_keep_nodes.remove: node not in list", st) ∧
    (rp.var_ct_ht = some tid →
      process_non_tuple_ch_init_nodes st rp =
        Except.error ("must_keep_nodes.remove: node not in list", st)) := by
  have hw : workaround_fill_ch_init_node st tid rp =
      Except.error ("must_keep_nodes.remove: node not in list", st) := by
    unfold workaround_fill_ch_init_node
    rw [hlook]
    simp only [hfill]
    rw [if_neg (by simp), if_pos hmem]
  refine ⟨hw, ?_⟩
  intro hct
  unfold process_non_tuple_ch_init_nodes
  rw [hct]
  simp only [hw]

/-- C10 sample data: a Fill-typed initializer node producing tensor 1. -/
def fillSample : Node :=
  { name := 0, type := opFill, inputs := [2, 3], output := [1] }

/-- C10 sample state: `fillSample` retained, must-keep list empty. -/
def fillStateSample : GraphState :=
  { nodes := [fillSample], mustKeep := [], shapes := [], nextName := 10 }

/-- Witness for C10 at the concrete Fill graph. -/
theorem C10_fill_workaround_witness :
    workaround_fill_ch_init_node fillStateSample 1 defaultProps =
      Except.error ("must_keep_nodes.remove: node not in list",
        fillStateSample) :=
  (C10_fill_workaround_requires_membership fillStateSample 1 defaultProps
    fillSample (by decide) (by decide) (by decide)).1

/-! ### Claim C9: re-running the initial-state builder -/

/-- Two successive invocations of the non-tuple initial-state builder with
the same properties, the second starting from the state the first
produced. -/
def runNonTupleTwice (st : GraphState) (rp : RnnProps) :
    Except GErr ((Nat × Nat) × GraphState) :=
  match process_non_tuple_ch_init_nodes st rp with
  | Except.error e => Except.error e
  | Except.ok (_, st1) => process_non_tuple_ch_init_nodes st1 rp

/-- Returned tensor-id pair of a successful builder run. -/
def okIds : Except GErr ((Nat × Nat) × GraphState) → Option (Nat × Nat)
  | Except.ok (ids, _) => some ids
  | Except.error _ => none

/-- Resulting state of a successful builder run. -/
def okState : Except GErr ((Nat × Nat) × GraphState) → Option GraphState
  | Except.ok (_, st) => some st
  | Except.error _ => none

/-- C9 counterexample: re-invoking `_process_non_tuple_ch_init_nodes`
with the same Match data returns different tensor ids ((5, 9) then
(13, 17)) and appends a duplicate must-keep entry, contradicting
idempotence. -/
theorem C9_counterexample :
    okIds (process_non_tuple_ch_init_nodes varInitStateSample
      varInitPropsAll) = some (5, 9) ∧
    okIds (runNonTupleTwice varInitStateSample varInitPropsAll) =
      some (13, 17) ∧
    (okState (runNonTupleTwice varInitStateSample varInitPropsAll)).map
      (fun s => s.mustKeep) = some [0, 0] := by
  refine ⟨by decide, by decide, by decide⟩

/-- Helper: resolving a tensor id is unaffected by appending nodes to the
retained list (the original producer is found first). -/
theorem get_node_by_name_append (st : GraphState) (ns : List Node)
    (t : Nat) (nd : Node) (h : get_node_by_name st t = some nd) :
    (st.nodes ++ ns).find? (fun n => decide (t ∈ n.output)) = some nd := by
  unfold get_node_by_name at h
  rw [List.find?_append, h]
  rfl

/-- Explicit result of one successful non-Fill run of
`_process_non_tuple_ch_init_nodes`: four fresh nodes are created and
extended (two slices, two unsqueezes), the returned ids are the two
unsqueeze outputs, and the initializer node is appended to must-keep. -/
theorem process_non_tuple_run (st : GraphState) (rp : RnnProps)
    (input_id : Nat) (nd : Node)
    (hct : rp.var_ct_ht = some input_id)
    (hlook : get_node_by_name st input_id = some nd)
    (hnf : nd.type ≠ opFill) :
    process_non_tuple_ch_init_nodes st rp = Except.ok
      ((st.nextName + 3, st.nextName + 7),
       { nodes := st.nodes ++
           [{ name := st.nextName, type := opSlice, inputs := [input_id],
              output := [st.nextName + 1],
              attrs := [("axes", [1]), ("starts", [0]),
                        ("ends", [Int.ofNat rp.hidden_size])] },
            { name := st.nextName + 4, type := opSlice,
              inputs := [input_id], output := [st.nextName + 5],
              attrs := [("axes", [1]),
                        ("starts", [Int.ofNat rp.hidden_size]),
                        ("ends", [Int.ofNat (rp.hidden_size * 2)])] },
            { name := st.nextName + 2, type := opUnsqueeze,
              inputs := [st.nextName + 1], output := [st.nextName + 3],
              attrs := [("axes", [0])] },
            { name := st.nextName + 6, type := opUnsqueeze,
              inputs := [st.nextName + 5], output := [st.nextName + 7],
              attrs := [("axes", [0])] }],
         mustKeep := st.mustKeep ++ [nd.name],
         shapes := st.shapes,
         nextName := st.nextName + 8 }) := by
  simp only [process_non_tuple_ch_init_nodes, hct,
    workaround_nonfill st input_id rp nd hlook hnf,
    make_onnx_node, extendAll, outId, get_node_by_name,
    List.range_succ, List.range_zero]
  rw [get_node_by_name_append st _ input_id nd hlook]
  simp_arith

/-- C9 amended: the initial-state builder is deterministic given the name
counter but not idempotent: a second invocation with the same Match data
returns strictly different (fresh) tensor ids, adds four further nodes,
and appends a duplicate must-keep entry. -/
theorem C9_rerun_not_idempotent (st : GraphState) (rp : RnnProps)
    (input_id : Nat) (nd : Node)
    (hct : rp.var_ct_ht = some input_id)
    (hlook : get_node_by_name st input_id = some nd)
    (hnf : nd.type ≠ opFill) :
    okIds (process_non_tuple_ch_init_nodes st rp) =
      some (st.nextName + 3, st.nextName + 7) ∧
    okIds (runNonTupleTwice st rp) =
      some (st.nextName + 11, st.nextName + 15) ∧
    okIds (process_non_tuple_ch_init_nodes st rp) ≠
      okIds (runNonTupleTwice st rp) ∧
    (okState (process_non_tuple_ch_init_nodes st rp)).map
      (fun s => s.nodes.length) = some (st.nodes.length + 4) ∧
    (okState (runNonTupleTwice st rp)).map (fun s => s.nodes.length) =
      some (st.nodes.length + 8) ∧
    (okState (runNonTupleTwice st rp)).map (fun s => s.mustKeep) =
      some (st.mustKeep ++ [nd.name, nd.name]) := by
  have h1 := process_non_tuple_run st rp input_id nd hct hlook hnf
  have hlook1 : get_node_by_name
      { nodes := st.nodes ++
           [{ name := st.nextName, type := opSlice, inputs := [input_id],
              output := [st.nextName + 1],
              attrs := [("axes", [1]), ("starts", [0]),
                        ("ends", [Int.ofNat rp.hidden_size])] },
            { name := st.nextName + 4, type := opSlice,
              inputs := [input_id], output := [st.nextName + 5],
              attrs := [("axes", [1]),
                        ("starts", [Int.ofNat rp.hidden_size]),
                        ("ends", [Int.ofNat (rp.hidden_size * 2)])] },
            { name := st.nextName + 2, type := opUnsqueeze,
              inputs := [st.nextName + 1], output := [st.nextName + 3],
              attrs := [("axes", [0])] },
            { name := st.nextName + 6, type := opUnsqueeze,
              inputs := [st.nextName + 5], output := [st.nextName + 7],
              attrs := [("axes", [0])] }],
         mustKeep := st.mustKeep ++ [nd.name],
         shapes := st.shapes,
         nextName := st.nextName + 8 } input_id = some nd := by
    unfold get_node_by_name
    exact get_node_by_name_append st _ input_id nd hlook
  have h2 := process_non_tuple_run _ rp input_id nd hct hlook1 hnf
  have hrt : runNonTupleTwice st rp = process_non_tuple_ch_init_nodes
      { nodes := st.nodes ++
           [{ name := st.nextName, type := opSlice, inputs := [input_id],
              output := [st.nextName + 1],
              attrs := [("axes", [1]), ("starts", [0]),
                        ("ends", [Int.ofNat rp.hidden_size])] },
            { name := st.nextName + 4, type := opSlice,
              inputs := [input_id], output := [st.nextName + 5],
              attrs := [("axes", [1]),
                        ("starts", [Int.ofNat rp.hidden_size]),
                        ("ends", [Int.ofNat (rp.hidden_size * 2)])] },
            { name := st.nextName + 2, type := opUnsqueeze,
              inputs := [st.nextName + 1], output := [st.nextName + 3],
              attrs := [("axes", [0])] },
            { name := st.nextName + 6, type := opUnsqueeze,
              inputs := [st.nextName + 5], output := [st.nextName + 7],
              attrs := [("axes", [0])] }],
         mustKeep := st.mustKeep ++ [nd.name],
         shapes := st.shapes,
         nextName := st.nextName + 8 } rp := by
    unfold runNonTupleTwice
    rw [h1]
  refine ⟨?_, ?_, ?_, ?_, ?_, ?_⟩
  · rw [h1]; rfl
  · rw [hrt, h2]
    simp only [okIds, Option.some.injEq, Prod.mk.injEq]
  · rw [hrt, h1, h2]
    simp only [okIds, ne_eq, Option.some.injEq, Prod.mk.injEq, not_and]
    intro hbad
    omega
  · rw [h1]
    simp [okState]
  · rw [hrt, h2]
    simp [okState]
  · rw [hrt, h2]
    simp [okState]

/-- Witness for the C9 amended theorem at the concrete sample (same input
as the counterexample). -/
theorem C9_rerun_witness :
    okIds (process_non_tuple_ch_init_nodes varInitStateSample
      varInitPropsAll) = some (2 + 3, 2 + 7) :=
  (C9_rerun_not_idempotent varInitStateSample varInitPropsAll 1
    initConstSample rfl (by decide) (by decide)).1

/-! ### Claims C5, C8: the accumulated-output reconnection
(lines 416-468) -/

/-- The `for n in exit_consumers` loop of
`_validate_output_exit_consumers`: gather consumers overwrite the
candidate, size-query consumers are skipped, anything else aborts with no
result; the accumulated candidate is returned at the end (`None` when no
gather was seen). -/
def validateGo : List Node → Option Node → Option Node
  | [], acc => acc
  | n :: rest, acc =>
    if n.type = opTAGather then validateGo rest (some n)
    else if n.type = opTASize then validateGo rest acc
    else none

/-- Shallow embedding of `_validate_output_exit_consumers`
(lines 455-468). -/
def validate_output_exit_consumers (exit_consumers : List Node) :
    Option Node :=
  if exit_consumers.length ≠ 2 then none
  else validateGo exit_consumers none

/-- Shallow embedding of `_connect_lstm_output_to_graph`
(lines 416-453).  `Except.error` models the two `raise ValueError`
statements, carrying the state at the moment of the raise (before the
raise at line 421 nothing has been mutated).  The batch-major branch
checks for exactly one transpose-to-time-major consumer of the gathered
tensor, creates a fresh transpose after the squeeze instead of reusing
it, and redirects references; finally all references to the gathered
tensor are redirected to the squeeze output and the squeeze is
retained. -/
def connect_lstm_output_to_graph (st : GraphState)
    (lstm_node exit_node : Node) (time_major : Bool) :
    Except GErr GraphState :=
  let exit_consumers := find_output_consumers st (outId exit_node)
  let gather_opt := validate_output_exit_consumers exit_consumers
  if exit_consumers.length ≠ 2 ∨ gather_opt = none then
    Except.error ("lstm output exit node check failed", st)
  else
    match gather_opt with
    | none => Except.error ("lstm output exit node check failed", st)
    | some gather_node =>
      let gather_output_id := outId gather_node
      let output_id := outId lstm_node
      let pr1 := make_onnx_node st opSqueeze [output_id] [("axes", [1])]
      let squeeze_node := pr1.1
      let lstm_output_shape := get_shape pr1.2 output_id
      let st2 := set_shape pr1.2 (outId squeeze_node)
        [lstm_output_shape.getD 0 0, lstm_output_shape.getD 2 0,
         lstm_output_shape.getD 3 0]
      let step : Except GErr GraphState :=
        if time_major then Except.ok st2
        else
          let gather_consumers := find_output_consumers st2 gather_output_id
          let gather_trans_consumers :=
            gather_consumers.filter check_is_timemajor_transpose
          match gather_trans_consumers with
          | [trans0] =>
            let pr2 := make_onnx_node st2 opTranspose [outId squeeze_node]
              [("perm", [1, 0, 2])]
            let new_trans := pr2.1
            let trans_input_shape := get_shape pr2.2 (outId squeeze_node)
            let st4 : GraphState := { pr2.2 with nodes :=
              (replace_all_inputs pr2.2.nodes (outId trans0)
                (outId new_trans)) }
            let st5 := set_shape st4 (outId new_trans)
              [trans_input_shape.getD 1 0, trans_input_shape.getD 0 0,
               trans_input_shape.getD 2 0]
            Except.ok (extendAll st5 [new_trans])
          | _ =>
            Except.error ("batch major should expect a transpose after gather",
              st2)
      match step with
      | Except.error e => Except.error e
      | Except.ok stA =>
        let stB : GraphState := { stA with nodes :=
          (replace_all_inputs stA.nodes gather_output_id
            (outId squeeze_node)) }
        Except.ok (extendAll stB [squeeze_node])

/-- C5 counterexample data: the loop exit node producing tensor 1. -/
def exitSample : Node := { name := 0, type := "Exit", inputs := [], output := [1] }

/-- C5 counterexample data: first gather consumer of the exit tensor. -/
def gatherA : Node :=
  { name := 2, type := opTAGather, inputs := [1], output := [3] }

/-- C5 counterexample data: second gather consumer of the exit tensor. -/
def gatherB : Node :=
  { name := 4, type := opTAGather, inputs := [1], output := [5] }

/-- C5 counterexample data: the fused node with its three outputs. -/
def lstmSample : Node :=
  { name := 6, type := "LSTM", inputs := [], output := [7, 8, 9] }

/-- C5 counterexample state. -/
def connectStateSample : GraphState :=
  { nodes := [exitSample, gatherA, gatherB, lstmSample], mustKeep := [],
    shapes := [], nextName := 10 }

/-- C5 counterexample: an exit point whose two consumers are both gather
operations (no size-query) passes validation (the second gather is
returned) and the reconnection completes without raising, contradicting
the claim that any consumer set other than one size-query plus one gather
raises a fatal error. -/
theorem C5_counterexample :
    find_output_consumers connectStateSample (outId exitSample) =
      [gatherA, gatherB] ∧
    validate_output_exit_consumers [gatherA, gatherB] = some gatherB ∧
    isOkE (connect_lstm_output_to_graph connectStateSample lstmSample
      exitSample true) = true := by
  refine ⟨by decide, by decide, by decide⟩

/-- C5 amended: validation accepts exactly the consumer sets of size two
whose members are all gather or size-query operations with at least one
gather (the last gather is returned); whenever validation fails the
reconnection raises the fatal error with the graph state unmutated. -/
theorem C5_exit_consumer_validation (cs : List Node) (st : GraphState)
    (lstm_node exit_node : Node) (tm : Bool) :
    ((validate_output_exit_consumers cs).isSome = true ↔
      (cs.length = 2 ∧
       (∀ n ∈ cs, n.type = opTAGather ∨ n.type = opTASize) ∧
       (∃ n ∈ cs, n.type = opTAGather))) ∧
    (validate_output_exit_consumers
        (find_output_consumers st (outId exit_node)) = none →
      connect_lstm_output_to_graph st lstm_node exit_node tm =
        Except.error ("lstm output exit node check failed", st)) := by
  constructor
  · match cs with
    | [] => simp [validate_output_exit_consumers]
    | [a] => simp [validate_output_exit_consumers]
    | a :: b :: c :: tl => simp [validate_output_exit_consumers]
    | [a, b] =>
      by_cases ha : a.type = "TensorArrayGatherV3" <;>
        by_cases ha2 : a.type = "TensorArraySizeV3" <;>
          by_cases hb : b.type = "TensorArrayGatherV3" <;>
            by_cases hb2 : b.type = "TensorArraySizeV3" <;>
              simp [validate_output_exit_consumers, validateGo,
                ha, ha2, hb, hb2, opTAGather, opTASize]
  · intro h
    simp [connect_lstm_output_to_graph, h]

/-- Witness for the C5 amended theorem: an empty consumer set fails
validation and the reconnection raises with the state unchanged. -/
theorem C5_exit_validation_witness :
    connect_lstm_output_to_graph emptyState lstmSample exitSample true =
      Except.error ("lstm output exit node check failed", emptyState) :=
  (C5_exit_consumer_validation [] emptyState lstmSample exitSample
    true).2 (by decide)

/-! ### Claim C8: batch-major accumulated-output reconnection -/

theorem find_output_consumers_set_shape (st : GraphState) (t : Nat)
    (s : List Int) (x : Nat) :
    find_output_consumers (set_shape st t s) x = find_output_consumers st x :=
  rfl

theorem find_output_consumers_nextName (st : GraphState) (m x : Nat) :
    find_output_consumers { st with nextName := m } x =
      find_output_consumers st x :=
  rfl

/-- Any node found by a consumer query is a retained node. -/
theorem mem_nodes_of_mem_consumers (st : GraphState) (t : Nat) (n : Node)
    (h : n ∈ find_output_consumers st t) : n ∈ st.nodes := by
  unfold find_output_consumers at h
  exact List.mem_of_mem_filter h

/-- All tensor ids of a retained node are below the fresh-name counter. -/
theorem outId_lt_of_mem (st : GraphState) (n : Node) (hm : n ∈ st.nodes)
    (hfresh : ∀ n' ∈ st.nodes, (∀ t ∈ n'.inputs, t < st.nextName) ∧
      (∀ t ∈ n'.output, t < st.nextName))
    (hpos : 0 < st.nextName) : outId n < st.nextName := by
  cases ho : n.output with
  | nil => simpa [outId, ho] using hpos
  | cons o tl =>
    have := (hfresh n hm).2 o (by rw [ho]; exact List.mem_cons_self o tl)
    simpa [outId, ho] using this

/-- After a tensor-id replacement, a tensor that is the replaced id (and
not the replacement) or that was absent is absent. -/
theorem not_mem_map_replace (x old nw : Nat) (l : List Nat)
    (hxn : x ≠ nw) (hxl : x = old ∨ x ∉ l) :
    x ∉ l.map (fun i => if i = old then nw else i) := by
  intro hx
  obtain ⟨i, hi, hix⟩ := List.mem_map.mp hx
  by_cases hio : i = old
  · rw [if_pos hio] at hix
    exact hxn hix.symm
  · rw [if_neg hio] at hix
    subst hix
    rcases hxl with h | h
    · exact hio h
    · exact h hi

/-- C8: in batch-major mode, once the two-consumer validation passes, the
reconnection demands exactly one transpose-to-time-major consumer of the
gathered tensor (any other count raises the fatal error); on success it
inserts a freshly created time/batch transpose reading the squeeze output,
and after the graph-wide input replacements no retained node references
the discarded transpose's output. -/
theorem C8_batchmajor_fresh_transpose (st : GraphState)
    (lstm_node exit_node size_node gather_node : Node)
    (hcons : find_output_consumers st (outId exit_node) =
      [size_node, gather_node])
    (hsz : size_node.type = opTASize)
    (hga : gather_node.type = opTAGather)
    (hfresh : ∀ n ∈ st.nodes, (∀ t ∈ n.inputs, t < st.nextName) ∧
      (∀ t ∈ n.output, t < st.nextName))
    (hpos : 0 < st.nextName) :
    (∀ tr : Node,
      (find_output_consumers st (outId gather_node)).filter
        check_is_timemajor_transpose = [tr] →
      outId lstm_node ≠ outId tr →
      (isOkE (connect_lstm_output_to_graph st lstm_node exit_node false)
          = true ∧
       ∀ stF, connect_lstm_output_to_graph st lstm_node exit_node false =
          Except.ok stF →
         (({ name := st.nextName + 2, type := opTranspose,
             inputs := [st.nextName + 1], output := [st.nextName + 3],
             attrs := [("perm", [1, 0, 2])] } : Node) ∈ stF.nodes ∧
          ∀ n ∈ stF.nodes, outId tr ∉ n.inputs))) ∧
    (((find_output_consumers st (outId gather_node)).filter
        check_is_timemajor_transpose).length ≠ 1 →
      isOkE (connect_lstm_output_to_graph st lstm_node exit_node false)
        = false) := by
  have hval : validate_output_exit_consumers [size_node, gather_node] =
      some gather_node := by
    simp [validate_output_exit_consumers, validateGo, hsz, hga,
      opTASize, opTAGather]
  have hgmem : gather_node ∈ st.nodes := by
    apply mem_nodes_of_mem_consumers st (outId exit_node)
    rw [hcons]
    simp
  have hgout : outId gather_node < st.nextName :=
    outId_lt_of_mem st gather_node hgmem hfresh hpos
  constructor
  · intro tr hftrans hlo
    have htrmem : tr ∈ st.nodes := by
      apply mem_nodes_of_mem_consumers st (outId gather_node)
      apply List.mem_of_mem_filter (p := check_is_timemajor_transpose)
      rw [hftrans]
      simp
    have htlt : outId tr < st.nextName :=
      outId_lt_of_mem st tr htrmem hfresh hpos
    simp only [outId, List.getD_eq_getElem?_getD] at hlo htlt
    simp only [find_output_consumers, outId] at hcons hftrans
    constructor
    · simp only [connect_lstm_output_to_graph, find_output_consumers,
        outId, make_onnx_node, set_shape, extendAll, hcons, hval, hftrans]
      simp [isOkE]
    · intro stF heq
      simp only [connect_lstm_output_to_graph, find_output_consumers,
        outId, make_onnx_node, set_shape, extendAll, hcons, hval,
        hftrans] at heq
      simp at heq
      subst heq
      simp only [outId, List.getD_eq_getElem?_getD]
      constructor
      · refine List.mem_append.mpr (Or.inl ?_)
        unfold replace_all_inputs
        rw [List.map_append]
        refine List.mem_append.mpr (Or.inr ?_)
        simp_arith [List.range_succ]
      · intro n hn
        rcases List.mem_append.mp hn with h1 | h1
        · unfold replace_all_inputs at h1
          obtain ⟨m, hm, rfl⟩ := List.mem_map.mp h1
          rcases List.mem_append.mp hm with h2 | h2
          · obtain ⟨m0, hm0, rfl⟩ := List.mem_map.mp h2
            apply not_mem_map_replace _ _ _ _ ?_ (Or.inr ?_)
            · omega
            · apply not_mem_map_replace _ _ _ _ ?_ (Or.inl rfl)
              omega
          · simp at h2
            subst h2
            simp
            omega
        · simp at h1
          subst h1
          simp
          intro hbad
          exact hlo hbad.symm
  · intro hlen
    simp only [find_output_consumers, outId] at hcons hlen
    simp only [connect_lstm_output_to_graph, find_output_consumers,
      outId, make_onnx_node, set_shape, extendAll, hcons, hval]
    rcases hcase : List.filter check_is_timemajor_transpose
        (List.filter
          (fun n => decide (gather_node.output.getD 0 0 ∈ n.inputs))
          st.nodes)
      with _ | ⟨t0, _ | ⟨t1, rest⟩⟩
    · simp [hcase, isOkE]
    · rw [hcase] at hlen
      simp at hlen
    · simp [hcase, isOkE]

/-- C8 witness data: the loop exit node producing tensor 1. -/
def exitW : Node := { name := 0, type := "Exit", inputs := [], output := [1] }

/-- C8 witness data: the size-query consumer of the exit tensor. -/
def sizeW : Node :=
  { name := 2, type := opTASize, inputs := [1], output := [3] }

/-- C8 witness data: the gather consumer of the exit tensor. -/
def gatherW : Node :=
  { name := 4, type := opTAGather, inputs := [1], output := [5] }

/-- C8 witness data: the unique transpose-to-time-major consumer of the
gathered tensor. -/
def transW : Node :=
  { name := 6, type := opTranspose, inputs := [5], output := [7],
    time_major_perm := true }

/-- C8 witness data: the fused node with its three outputs. -/
def lstmW : Node :=
  { name := 8, type := "LSTM", inputs := [], output := [9, 10, 11] }

/-- C8 witness state. -/
def batchMajorStateW : GraphState :=
  { nodes := [exitW, sizeW, gatherW, transW, lstmW], mustKeep := [],
    shapes := [], nextName := 12 }

/-- Witness for C8: the batch-major reconnection succeeds on the concrete
graph with exactly one time-major transpose consumer. -/
theorem C8_batchmajor_witness :
    isOkE (connect_lstm_output_to_graph batchMajorStateW lstmW exitW
      false) = true :=
  ((C8_batchmajor_fresh_transpose batchMajorStateW lstmW exitW sizeW
      gatherW (by decide) (by decide) (by decide) (by decide)
      (by decide)).1 transW (by decide) (by decide)).1

end LstmRewriter
